import Mathlib

/-!
Verification of the HTTP-API client model of `http_api.py`.

This file gives a shallow embedding of the parts of `http_api.py`
(domain objects `Camera` / `Archive` / `Detector`, the two error-checking
policies of `WebHttpApi` and `RsgHttpApi`, the create-via-diff factory
`get_new_object`, the archive-interval query `get_arch_intervals`, the
export-polling loop of `export_video`, and the helper `add_int_to_dict`)
and proves the specified properties about them.

Modelling conventions:
* Python strings are modelled as `String` or as `List Char`.
* Python floats in the polling-interval computation are modelled by `ℚ`
  (the properties checked only concern ordinary finite fractions).
* Raising an exception is modelled by `Bool` (true = raises) for the
  error-checking hooks, and by `Except String _` for operations that
  either fail or return a value.
-/

/-- Character constants, built by code point so that quote characters never
appear as literals.  `aposChar` is the apostrophe, `dquoteChar` the double
quote, `backslashChar` the backslash. -/
def aposChar : Char := Char.ofNat 39

/-- Double-quote character. -/
def dquoteChar : Char := Char.ofNat 34

/-- Backslash character. -/
def backslashChar : Char := Char.ofNat 92

/-- Apostrophe as a one-character string. -/
def aposStr : String := String.singleton aposChar

/-- Double quote as a one-character string. -/
def dquoteStr : String := String.singleton dquoteChar

namespace RsgHttpApi

/-- The allow-list of benign error messages from `RsgHttpApi.check_for_error`
(`http_api.py` lines 516-520).  The first two messages contain an apostrophe
(written `Can't` in the source). -/
def ignored_messages : List String :=
  ["Can" ++ aposStr ++ "t find objects to delete",
   "Can" ++ aposStr ++ "t find detectors to remove",
   "Nothing to flush, no operations were performed"]

/-- Model of `RsgHttpApi.check_for_error` (`http_api.py` lines 513-529):
the body raises `RSGServerError` iff the response JSON has
`Result != 'Success'` and its `Message` is not in `ignored_messages`.
Returns `true` iff the exception is raised. -/
def check_for_error (result message : String) : Bool :=
  result != "Success" && !(ignored_messages.contains message)

end RsgHttpApi

namespace WebHttpApi

/-- Model of `WebHttpApi.check_for_error` (`http_api.py` lines 278-296).
The body calls `requests.Response.raise_for_status`, which raises
`HTTPError` exactly when `400 <= status_code < 600` (client or server
error); the surrounding `try` only builds the `ServerError` message.
Returns `true` iff `ServerError` is raised. -/
def check_for_error (status_code : Nat) : Bool :=
  decide (400 ≤ status_code) && decide (status_code < 600)

/-- Model of one iteration of the `export_video` polling loop
(`http_api.py` lines 408-426).  `progress` is `none` when
`float(resp_dict['progress'])` raises (missing or non-numeric field);
`p = 0` makes `(1.0-p)/p` raise `ZeroDivisionError`, which the bare
`except` swallows, leaving `sleep` at its previous value; the `finally`
clause then resets any out-of-range value to 1. -/
def nextSleep (progress : Option ℚ) (prevSleep accSleep : ℚ) : ℚ :=
  let sleep :=
    match progress with
    | some p => if p = 0 then prevSleep else (1 - p) / p * accSleep / 2
    | none => prevSleep
  if sleep < 1 ∨ sleep > 30 then 1 else sleep

/-- The sequence of durations passed to `time.sleep` by the polling loop,
one per poll that still reports `IN_PROGRESS`, starting from state
`sleep`, `acc_sleep` and consuming the reported progress values. -/
def pollSleeps (progresses : List (Option ℚ)) (sleep acc : ℚ) : List ℚ :=
  match progresses with
  | [] => []
  | p :: rest =>
      let s := nextSleep p sleep acc
      s :: pollSleeps rest s (acc + s)

/-- `export_video` initialises `sleep = 1` and `acc_sleep = 0` before the
polling loop. -/
def export_video_sleeps (progresses : List (Option ℚ)) : List ℚ :=
  pollSleeps progresses 1 0

end WebHttpApi

/-- Every value produced by `nextSleep` lies in `[1, 30]`. -/
theorem nextSleep_bounds (p : Option ℚ) (prev acc : ℚ) :
    1 ≤ WebHttpApi.nextSleep p prev acc ∧ WebHttpApi.nextSleep p prev acc ≤ 30 := by
  unfold WebHttpApi.nextSleep
  set s : ℚ := match p with
    | some p => if p = 0 then prev else (1 - p) / p * acc / 2
    | none => prev with hs
  by_cases h : s < 1 ∨ s > 30
  · simp only [h, if_true]
    norm_num
  · simp only [h, if_false]
    push_neg at h
    exact ⟨h.1, h.2⟩

/-- Bounds carry over to every element of the emitted sleep list. -/
theorem pollSleeps_bounds (ps : List (Option ℚ)) :
    ∀ sleep acc : ℚ, ∀ s ∈ WebHttpApi.pollSleeps ps sleep acc, 1 ≤ s ∧ s ≤ 30 := by
  induction ps with
  | nil => intro sleep acc s hs; simp [WebHttpApi.pollSleeps] at hs
  | cons p rest ih =>
      intro sleep acc s hs
      simp only [WebHttpApi.pollSleeps, List.mem_cons] at hs
      rcases hs with rfl | hs
      · exact nextSleep_bounds p sleep acc
      · exact ih _ _ s hs

/-- C3: in the `export_video` status-polling loop, for every iteration in
which the job is still `IN_PROGRESS` and for every reported progress value
(including degenerate values such as 0 or a missing/non-numeric progress
field), the duration passed to `time.sleep` lies in the closed interval
`[1, 30]`. -/
theorem export_video_sleep_bounds (ps : List (Option ℚ)) (s : ℚ)
    (hs : s ∈ WebHttpApi.export_video_sleeps ps) : 1 ≤ s ∧ s ≤ 30 :=
  pollSleeps_bounds ps 1 0 s hs

/-- Witness for C3 at a concrete polling trace. -/
theorem export_video_sleep_bounds_witness : 1 ≤ (1 : ℚ) ∧ (1 : ℚ) ≤ 30 :=
  export_video_sleep_bounds [none] 1
    (by simp [WebHttpApi.export_video_sleeps, WebHttpApi.pollSleeps, WebHttpApi.nextSleep])

/-- C2: `RsgHttpApi.check_for_error` raises no exception when `Result` is
`'Success'`; it always raises `RSGServerError` when `Result` differs from
`'Success'` and `Message` is not in the allow-list; and a non-Success
`Result` with an allow-listed `Message` is treated as success. -/
theorem rsg_check_for_error_spec (result message : String) :
    (result = "Success" → RsgHttpApi.check_for_error result message = false) ∧
    (result ≠ "Success" → message ∉ RsgHttpApi.ignored_messages →
      RsgHttpApi.check_for_error result message = true) ∧
    (result ≠ "Success" → message ∈ RsgHttpApi.ignored_messages →
      RsgHttpApi.check_for_error result message = false) := by
  refine ⟨fun h => ?_, fun h hm => ?_, fun h hm => ?_⟩
  · simp [RsgHttpApi.check_for_error, h]
  · simp [RsgHttpApi.check_for_error, h, hm, List.elem_iff]
  · simp [RsgHttpApi.check_for_error, h, hm, List.elem_iff]

/-- Witness for C2 at a concrete failed response. -/
theorem rsg_check_for_error_spec_witness :
    RsgHttpApi.check_for_error "Failed" "boom" = true :=
  (rsg_check_for_error_spec "Failed" "boom").2.1 (by decide) (by decide)

/-- C5 counterexample: the claim says every non-2xx status raises, but
`raise_for_status` does not raise on a 301 redirect status, which is not
in the 2xx range. -/
theorem web_check_for_error_claim_counterexample :
    WebHttpApi.check_for_error 301 = false ∧ ¬(200 ≤ 301 ∧ 301 < 300) := by
  decide

/-- C5 (amended): `WebHttpApi.check_for_error` raises `ServerError` exactly
for status codes in `[400, 599]`; in particular no 2xx status raises, but
1xx and 3xx statuses do not raise either. -/
theorem web_check_for_error_amended (status_code : Nat) :
    (WebHttpApi.check_for_error status_code = true ↔
      400 ≤ status_code ∧ status_code < 600) ∧
    (200 ≤ status_code → status_code < 300 →
      WebHttpApi.check_for_error status_code = false) := by
  constructor
  · simp [WebHttpApi.check_for_error]
  · intro h1 h2
    simp only [WebHttpApi.check_for_error, Bool.and_eq_false_iff, decide_eq_false_iff_not]
    omega

/-- Witness for C5 at a concrete 2xx status. -/
theorem web_check_for_error_amended_witness :
    WebHttpApi.check_for_error 204 = false :=
  (web_check_for_error_amended 204).2 (by decide) (by decide)

/-- Model of one Python dict assignment `d[k] = v` on an insertion-ordered
association list: update in place when the key is present, else append. -/
def pyDictSet (d : List (String × Int)) (k : String) (v : Int) : List (String × Int) :=
  match d with
  | [] => [(k, v)]
  | (k0, v0) :: rest => if k0 = k then (k0, v) :: rest else (k0, v0) :: pyDictSet rest k v

/-- Model of `add_int_to_dict` (`http_api.py` lines 83-88).  The body
executes `dict_['key'] = int(val)`: the value is stored under the literal
string `'key'`, not under the `key` argument.  `val` is an `int` here
(`limit` / `scale`), so `int(val)` is the identity and the `ValueError`
branch is unreachable. -/
def add_int_to_dict (dict_ : List (String × Int)) (key : String) (val : Option Int) :
    List (String × Int) :=
  match val with
  | none => dict_
  | some v =>
      let _ := key
      pyDictSet dict_ "key" v

/-- The `params` dict built by `get_arch_intervals` (`http_api.py` lines
346-348): start from the empty dict, then add `limit`, then `scale`. -/
def buildParams (limit scale : Option Int) : List (String × Int) :=
  add_int_to_dict (add_int_to_dict [] "limit" limit) "scale" scale

/-- Sort order enum from the source:
`TimeSortOrder = Enum('TimeSortOrder', ['NEWER_FIRST', 'OLDER_FIRST'])`. -/
inductive TimeSortOrder where
  | NEWER_FIRST
  | OLDER_FIRST
deriving DecidableEq

/-- One archive interval after `ts_to_arrow` parsing.  Arrow instants are
totally ordered points in time; they are modelled as integers (e.g. epoch
milliseconds), which is all the sorting logic observes. -/
structure ArchInterval where
  begin_ : Int
  end_ : Int
deriving DecidableEq, Repr

/-- The final sorting step of `get_arch_intervals` (`http_api.py` lines
369-370): `sorted(intervals, key=itemgetter('begin'), reverse=(sort_order
is TimeSortOrder.NEWER_FIRST))`.  Python's stable sort is modelled by
insertion sort on the `begin` key; `reverse=True` sorts by descending
`begin`. -/
def sortIntervals (sort_order : TimeSortOrder) (l : List ArchInterval) : List ArchInterval :=
  match sort_order with
  | .NEWER_FIRST => l.insertionSort (fun a b => b.begin_ ≤ a.begin_)
  | .OLDER_FIRST => l.insertionSort (fun a b => a.begin_ ≤ b.begin_)

/-- Observable outcome of a `get_arch_intervals` call: whether `get_nodes()`
was consulted, which node the query was issued for (`none` when no interval
query was issued), the query parameters sent, and the result. -/
structure GAIOutcome where
  calledGetNodes : Bool
  resolvedNode : Option String
  queryParams : List (String × Int)
  result : Except String (List ArchInterval × Bool)
deriving Repr

namespace WebHttpApi

/-- Model of `WebHttpApi.get_arch_intervals` (`http_api.py` lines 305-371).
`nodesResp` is the oracle for what `self.get_nodes()` would return;
`serverIntervals` and `serverMore` are the parsed `data['intervals']`
(after `ts_to_arrow`) and `data['more']` of the HTTP response.  URL path
components (`display_id`, `channel`, `stream`, the time window) do not
influence any verified property and are omitted. -/
def get_arch_intervals (node : Option String) (limit scale : Option Int)
    (sort_order : TimeSortOrder) (nodesResp : List String)
    (serverIntervals : List ArchInterval) (serverMore : Bool) : GAIOutcome :=
  match node with
  | some n =>
      { calledGetNodes := false
        resolvedNode := some n
        queryParams := buildParams limit scale
        result := .ok (sortIntervals sort_order serverIntervals, serverMore) }
  | none =>
      if nodesResp.length = 1 then
        { calledGetNodes := true
          resolvedNode := nodesResp.head?
          queryParams := buildParams limit scale
          result := .ok (sortIntervals sort_order serverIntervals, serverMore) }
      else
        { calledGetNodes := true
          resolvedNode := none
          queryParams := []
          result := .error ("Cannt choose node name automatically: get_nodes() returns " ++
            String.intercalate ", " nodesResp) }

end WebHttpApi

instance : IsTotal ArchInterval (fun a b => b.begin_ ≤ a.begin_) :=
  ⟨fun a b => le_total b.begin_ a.begin_⟩

instance : IsTrans ArchInterval (fun a b => b.begin_ ≤ a.begin_) :=
  ⟨fun _ _ _ hab hbc => le_trans hbc hab⟩

instance : IsTotal ArchInterval (fun a b => a.begin_ ≤ b.begin_) :=
  ⟨fun a b => le_total a.begin_ b.begin_⟩

instance : IsTrans ArchInterval (fun a b => a.begin_ ≤ b.begin_) :=
  ⟨fun _ _ _ hab hbc => le_trans hab hbc⟩

/-- Both sort directions produce lists sorted by `begin_` in the
corresponding order. -/
theorem sortIntervals_sorted (sort_order : TimeSortOrder) (l : List ArchInterval) :
    (sort_order = .NEWER_FIRST →
      (sortIntervals sort_order l).Sorted (fun a b => b.begin_ ≤ a.begin_)) ∧
    (sort_order = .OLDER_FIRST →
      (sortIntervals sort_order l).Sorted (fun a b => a.begin_ ≤ b.begin_)) := by
  cases sort_order with
  | NEWER_FIRST =>
      exact ⟨fun _ => List.sorted_insertionSort _ l, fun h => TimeSortOrder.noConfusion h⟩
  | OLDER_FIRST =>
      exact ⟨fun h => TimeSortOrder.noConfusion h, fun _ => List.sorted_insertionSort _ l⟩

/-- C4: every interval list returned by `get_arch_intervals` has
non-increasing `begin` times under `NEWER_FIRST` and non-decreasing
`begin` times under `OLDER_FIRST`. -/
theorem get_arch_intervals_sorted (node : Option String) (limit scale : Option Int)
    (sort_order : TimeSortOrder) (nodesResp : List String)
    (serverIntervals : List ArchInterval) (serverMore : Bool)
    (l : List ArchInterval) (m : Bool)
    (h : (WebHttpApi.get_arch_intervals node limit scale sort_order nodesResp
            serverIntervals serverMore).result = .ok (l, m)) :
    (sort_order = .NEWER_FIRST → l.Sorted (fun a b => b.begin_ ≤ a.begin_)) ∧
    (sort_order = .OLDER_FIRST → l.Sorted (fun a b => a.begin_ ≤ b.begin_)) := by
  have hl : l = sortIntervals sort_order serverIntervals := by
    cases node with
    | some n =>
        simp only [WebHttpApi.get_arch_intervals, Except.ok.injEq, Prod.mk.injEq] at h
        exact h.1.symm
    | none =>
        by_cases hn : nodesResp.length = 1
        · simp only [WebHttpApi.get_arch_intervals, hn, if_true, Except.ok.injEq,
            Prod.mk.injEq] at h
          exact h.1.symm
        · simp only [WebHttpApi.get_arch_intervals, hn, if_false] at h
          cases h
  subst hl
  exact sortIntervals_sorted sort_order serverIntervals

/-- Witness for C4 at a concrete call. -/
theorem get_arch_intervals_sorted_witness :
    (sortIntervals .NEWER_FIRST [⟨2, 5⟩, ⟨4, 6⟩]).Sorted
      (fun a b => b.begin_ ≤ a.begin_) :=
  (get_arch_intervals_sorted (some "node1") none none .NEWER_FIRST []
    [⟨2, 5⟩, ⟨4, 6⟩] true (sortIntervals .NEWER_FIRST [⟨2, 5⟩, ⟨4, 6⟩]) true rfl).1 rfl

/-- C9: a call with an explicit node never consults `get_nodes()`; a call
with `node=None` consults it, proceeds with the single returned node when
there is exactly one, and fails without issuing the interval query when
the node list has zero or several entries. -/
theorem get_arch_intervals_node_resolution (limit scale : Option Int)
    (sort_order : TimeSortOrder) (nodesResp : List String)
    (serverIntervals : List ArchInterval) (serverMore : Bool) :
    (∀ n : String,
      (WebHttpApi.get_arch_intervals (some n) limit scale sort_order nodesResp
          serverIntervals serverMore).calledGetNodes = false) ∧
    (nodesResp.length = 1 →
      (WebHttpApi.get_arch_intervals none limit scale sort_order nodesResp
          serverIntervals serverMore).calledGetNodes = true ∧
      (WebHttpApi.get_arch_intervals none limit scale sort_order nodesResp
          serverIntervals serverMore).resolvedNode = nodesResp.head?) ∧
    (nodesResp.length ≠ 1 →
      (WebHttpApi.get_arch_intervals none limit scale sort_order nodesResp
          serverIntervals serverMore).resolvedNode = none ∧
      ∃ e, (WebHttpApi.get_arch_intervals none limit scale sort_order nodesResp
          serverIntervals serverMore).result = .error e) := by
  refine ⟨fun n => rfl, fun h1 => ?_, fun h1 => ?_⟩
  · simp [WebHttpApi.get_arch_intervals, h1]
  · simp [WebHttpApi.get_arch_intervals, h1]

/-- Witness for C9 at a concrete two-node topology. -/
theorem get_arch_intervals_node_resolution_witness :
    (WebHttpApi.get_arch_intervals none none none .NEWER_FIRST ["n1", "n2"]
        [] false).resolvedNode = none ∧
    ∃ e, (WebHttpApi.get_arch_intervals none none none .NEWER_FIRST ["n1", "n2"]
        [] false).result = .error e :=
  (get_arch_intervals_node_resolution none none .NEWER_FIRST ["n1", "n2"] []
    false).2.2 (by decide)

/-- C10: when `limit` and/or `scale` is non-None, the query-parameter dict
sent by `get_arch_intervals` never contains the keys `'limit'` or
`'scale'`; `add_int_to_dict` stores each value under the literal key
`'key'`, the later call overwriting the earlier one. -/
theorem get_arch_intervals_params_key_bug (n : String) (limit scale : Option Int)
    (sort_order : TimeSortOrder) (nodesResp : List String)
    (serverIntervals : List ArchInterval) (serverMore : Bool)
    (h : limit ≠ none ∨ scale ≠ none) :
    (WebHttpApi.get_arch_intervals (some n) limit scale sort_order nodesResp
        serverIntervals serverMore).queryParams = buildParams limit scale ∧
    (buildParams limit scale).lookup "limit" = none ∧
    (buildParams limit scale).lookup "scale" = none ∧
    ∃ v : Int, buildParams limit scale = [("key", v)] ∧
      (scale = some v ∨ (scale = none ∧ limit = some v)) := by
  refine ⟨rfl, ?_⟩
  cases limit with
  | none =>
      cases scale with
      | none => simp at h
      | some s =>
          refine ⟨rfl, rfl, s, ?_, Or.inl rfl⟩
          rfl
  | some lv =>
      cases scale with
      | none =>
          refine ⟨rfl, rfl, lv, ?_, Or.inr ⟨rfl, rfl⟩⟩
          rfl
      | some s =>
          refine ⟨rfl, rfl, s, ?_, Or.inl rfl⟩
          rfl

/-- Witness for C10 at a concrete call with both `limit` and `scale` set. -/
theorem get_arch_intervals_params_key_bug_witness :
    (WebHttpApi.get_arch_intervals (some "n1") (some 5) (some 7) .NEWER_FIRST []
        [] false).queryParams = buildParams (some 5) (some 7) ∧
    (buildParams (some 5) (some 7)).lookup "limit" = none ∧
    (buildParams (some 5) (some 7)).lookup "scale" = none ∧
    ∃ v : Int, buildParams (some 5) (some 7) = [("key", v)] ∧
      (some (7 : Int) = some v ∨ (some (7 : Int) = none ∧ some (5 : Int) = some v)) :=
  get_arch_intervals_params_key_bug "n1" (some 5) (some 7) .NEWER_FIRST [] [] false
    (Or.inl (by decide))

namespace RsgHttpApi

/-- Model of `RsgHttpApi.get_new_object` (`http_api.py` lines 494-511):
`objects_new = list(set(objects_after) - set(objects_before))`, then
`assert len(objects_new) == 1` and the single element becomes the created
object.  The set difference is the deduplicated list of elements of
`objects_after` that do not occur in `objects_before`; a failing `assert`
(zero or several new objects) is modelled by `none`. -/
def get_new_object {α : Type} [DecidableEq α] (objects_before objects_after : List α) :
    Option α :=
  match (objects_after.filter (fun x => !(objects_before.contains x))).dedup with
  | [x] => some x
  | _ => none

end RsgHttpApi

/-- The deduplicated filtered list underlying `get_new_object` has the set
difference of the two snapshots as its set of elements. -/
theorem new_objects_toFinset {α : Type} [DecidableEq α] (objects_before objects_after : List α) :
    ((objects_after.filter (fun x => !(objects_before.contains x))).dedup).toFinset =
      objects_after.toFinset \ objects_before.toFinset := by
  ext y
  simp [List.mem_dedup, List.mem_filter, Finset.mem_sdiff, List.mem_toFinset, List.elem_iff]

/-- C1: `get_new_object` returns an object exactly when the set difference
(after minus before) is that singleton, and fails (the `assert` on
`len(objects_new) == 1`) exactly when the difference has zero or at least
two elements. -/
theorem get_new_object_spec {α : Type} [DecidableEq α]
    (objects_before objects_after : List α) :
    (∀ x : α, RsgHttpApi.get_new_object objects_before objects_after = some x ↔
      objects_after.toFinset \ objects_before.toFinset = {x}) ∧
    (RsgHttpApi.get_new_object objects_before objects_after = none ↔
      (objects_after.toFinset \ objects_before.toFinset).card ≠ 1) := by
  have hto := new_objects_toFinset objects_before objects_after
  have hnd : ((objects_after.filter (fun x => !(objects_before.contains x))).dedup).Nodup :=
    List.nodup_dedup _
  have hcard : (objects_after.toFinset \ objects_before.toFinset).card =
      ((objects_after.filter (fun x => !(objects_before.contains x))).dedup).length := by
    rw [← hto, List.toFinset_card_of_nodup hnd]
  rcases hd : (objects_after.filter (fun x => !(objects_before.contains x))).dedup with
    _ | ⟨a, _ | ⟨b, t⟩⟩
  · rw [hd] at hto hcard
    refine ⟨fun x => ?_, ?_⟩
    · rw [RsgHttpApi.get_new_object, hd]
      simp only [false_iff, reduceCtorEq]
      intro hx
      have : x ∈ objects_after.toFinset \ objects_before.toFinset := by
        rw [hx]; exact Finset.mem_singleton_self x
      rw [← hto] at this
      simp at this
    · rw [RsgHttpApi.get_new_object, hd]
      simp only [List.length_nil] at hcard
      simp [hcard]
  · rw [hd] at hto hcard
    refine ⟨fun x => ?_, ?_⟩
    · rw [RsgHttpApi.get_new_object, hd]
      simp only [Option.some.injEq]
      constructor
      · rintro rfl
        rw [← hto]
        simp
      · intro hx
        have ha : a ∈ ({x} : Finset α) := by
          rw [← hx, ← hto]; simp
        simpa using ha
    · rw [RsgHttpApi.get_new_object, hd]
      simp only [List.length_singleton] at hcard
      simp [hcard]
  · rw [hd] at hto hcard
    have hab : a ≠ b := by
      rw [hd] at hnd
      exact (List.nodup_cons.mp hnd).1 ∘ fun h => h ▸ List.mem_cons_self b t
    refine ⟨fun x => ?_, ?_⟩
    · rw [RsgHttpApi.get_new_object, hd]
      simp only [false_iff, reduceCtorEq]
      intro hx
      have ha : a ∈ ({x} : Finset α) := by rw [← hx, ← hto]; simp
      have hb : b ∈ ({x} : Finset α) := by rw [← hx, ← hto]; simp
      simp only [Finset.mem_singleton] at ha hb
      exact hab (ha.trans hb.symm)
    · rw [RsgHttpApi.get_new_object, hd]
      simp only [List.length_cons] at hcard
      simp [hcard]

/-- Witness for C1 at a concrete pair of snapshots. -/
theorem get_new_object_spec_witness :
    RsgHttpApi.get_new_object [1, 2] [1, 2, 3] = some 3 :=
  ((get_new_object_spec [1, 2] [1, 2, 3]).1 3).mpr (by decide)

namespace WebHttpApi

/-- Export job states (`http_api.py` lines 50-54). -/
inductive ExportJobState where
  | IN_PROGRESS
  | DONE
  | ERROR
  | NO_SPACE
deriving DecidableEq

/-- The numeric `value` of each enum member. -/
def ExportJobState.value : ExportJobState → Nat
  | .IN_PROGRESS => 1
  | .DONE => 2
  | .ERROR => 3
  | .NO_SPACE => 4

/-- Status response observed when the `export_video` polling loop exits
(`resp_dict` at `http_api.py` line 428): the terminal `state` code and the
fields used by the error message and the download phase. -/
structure ExportStatusResponse where
  state : Nat
  error : String
  progress : String
  files : List String

/-- Model of `export_video` after the polling loop (`http_api.py` lines
428-443): if the terminal state is not `DONE` an exception is raised whose
message interpolates `error`, `state` and `progress`; otherwise the listed
files are downloaded and written.  (`is not` on the small ints 1-4 is
reference comparison, which CPython's small-int cache makes equivalent to
`!=`.)  `.ok fs` means the files `fs` get written to `save_dir`;
`.error msg` means the exception is raised and nothing is written. -/
def export_finish (resp : ExportStatusResponse) : Except String (List String) :=
  if resp.state ≠ ExportJobState.DONE.value then
    .error ("Error during export: " ++ dquoteStr ++ resp.error ++ dquoteStr ++
      " (code=" ++ toString resp.state ++ "). Progress: " ++ resp.progress ++ ".")
  else
    .ok resp.files

end WebHttpApi

/-- C7: when the polling loop ends in a terminal state other than `DONE`
(`ERROR` or `NO_SPACE`), an exception is raised whose message carries the
server-reported error string, the state code and the last progress value,
and no output file is written. -/
theorem export_error_state (resp : WebHttpApi.ExportStatusResponse)
    (h : resp.state = WebHttpApi.ExportJobState.ERROR.value ∨
         resp.state = WebHttpApi.ExportJobState.NO_SPACE.value) :
    WebHttpApi.export_finish resp =
      .error ("Error during export: " ++ dquoteStr ++ resp.error ++ dquoteStr ++
        " (code=" ++ toString resp.state ++ "). Progress: " ++ resp.progress ++ ".") ∧
    ∀ fs : List String, WebHttpApi.export_finish resp ≠ .ok fs := by
  have hne : resp.state ≠ WebHttpApi.ExportJobState.DONE.value := by
    rcases h with h | h <;> rw [h] <;> decide
  refine ⟨?_, ?_⟩
  · simp [WebHttpApi.export_finish, hne]
  · intro fs hok
    rw [WebHttpApi.export_finish, if_pos hne] at hok
    cases hok

/-- Witness for C7 at a concrete `ERROR` response. -/
theorem export_error_state_witness :
    WebHttpApi.export_finish ⟨3, "disk failure", "0.5", []⟩ =
      .error ("Error during export: " ++ dquoteStr ++ "disk failure" ++ dquoteStr ++
        " (code=" ++ toString (3 : Nat) ++ "). Progress: " ++ "0.5" ++ ".") ∧
    ∀ fs : List String, WebHttpApi.export_finish ⟨3, "disk failure", "0.5", []⟩ ≠ .ok fs :=
  export_error_state ⟨3, "disk failure", "0.5", []⟩ (Or.inl rfl)

/-- The canonical detector id suffix. -/
def eventSupplierSuffix : List Char := "EventSupplier".toList

/-- The alternate detector id suffix. -/
def sourceEndpointVmdaSuffix : List Char := "SourceEndpoint.vmda".toList

namespace Detector

/-- Model of `Detector.__init__` (`http_api.py` lines 202-214): an id
ending in `EventSupplier` is kept as is (endpoint `None`); an id ending in
`SourceEndpoint.vmda` is remembered as `endpoint` and replaced by the same
id with that suffix swapped for `EventSupplier` (`id.rindex` of a suffix
is `len(id) - len(suffix)`, so `id[:id.rindex(...)]` is `take`); any other
id raises (bare `raise`), modelled as `none`.  The result is the pair
(stored id, endpoint attribute). -/
def init (id : List Char) : Option (List Char × Option (List Char)) :=
  if eventSupplierSuffix.isSuffixOf id then
    some (id, none)
  else if sourceEndpointVmdaSuffix.isSuffixOf id then
    some (id.take (id.length - sourceEndpointVmdaSuffix.length) ++ eventSupplierSuffix,
      some id)
  else
    none

end Detector

/-- C8: ids ending in `EventSupplier` are stored unchanged; ids ending in
`SourceEndpoint.vmda` are stored with that suffix replaced by
`EventSupplier`, the original id kept in `endpoint`; any other id raises;
and every successfully constructed detector id ends in `EventSupplier`. -/
theorem detector_init_spec (id : List Char) :
    (eventSupplierSuffix.isSuffixOf id = true → Detector.init id = some (id, none)) ∧
    (eventSupplierSuffix.isSuffixOf id = false →
     sourceEndpointVmdaSuffix.isSuffixOf id = true →
      Detector.init id =
        some (id.take (id.length - sourceEndpointVmdaSuffix.length) ++ eventSupplierSuffix,
          some id) ∧
      id.take (id.length - sourceEndpointVmdaSuffix.length) ++ sourceEndpointVmdaSuffix = id) ∧
    (eventSupplierSuffix.isSuffixOf id = false →
     sourceEndpointVmdaSuffix.isSuffixOf id = false → Detector.init id = none) ∧
    (∀ nid ep, Detector.init id = some (nid, ep) →
      eventSupplierSuffix.isSuffixOf nid = true) := by
  refine ⟨fun h1 => ?_, fun h1 h2 => ⟨?_, ?_⟩, fun h1 h2 => ?_, fun nid ep hsome => ?_⟩
  · simp [Detector.init, h1]
  · simp [Detector.init, h1, h2]
  · obtain ⟨t, ht⟩ := List.isSuffixOf_iff_suffix.mp h2
    have hlen : id.length - sourceEndpointVmdaSuffix.length = t.length := by
      rw [← ht, List.length_append]; omega
    rw [hlen, ← ht, List.take_left]
  · simp [Detector.init, h1, h2]
  · by_cases h1 : eventSupplierSuffix.isSuffixOf id
    · rw [Detector.init, if_pos h1] at hsome
      obtain ⟨rfl, -⟩ := Prod.mk.injEq .. ▸ Option.some.inj hsome
      exact h1
    · by_cases h2 : sourceEndpointVmdaSuffix.isSuffixOf id
      · rw [Detector.init, if_neg h1, if_pos h2] at hsome
        obtain ⟨rfl, -⟩ := Prod.mk.injEq .. ▸ Option.some.inj hsome
        exact List.isSuffixOf_iff_suffix.mpr ⟨_, rfl⟩
      · rw [Detector.init, if_neg h1, if_neg h2] at hsome
        cases hsome

/-- Witness for C8 at a concrete `SourceEndpoint.vmda` id. -/
theorem detector_init_spec_witness :
    Detector.init "hosts/S/AVDetector.1/SourceEndpoint.vmda".toList =
      some ("hosts/S/AVDetector.1/SourceEndpoint.vmda".toList.take
          ("hosts/S/AVDetector.1/SourceEndpoint.vmda".toList.length -
            sourceEndpointVmdaSuffix.length) ++ eventSupplierSuffix,
        some "hosts/S/AVDetector.1/SourceEndpoint.vmda".toList) ∧
    "hosts/S/AVDetector.1/SourceEndpoint.vmda".toList.take
        ("hosts/S/AVDetector.1/SourceEndpoint.vmda".toList.length -
          sourceEndpointVmdaSuffix.length) ++ sourceEndpointVmdaSuffix =
      "hosts/S/AVDetector.1/SourceEndpoint.vmda".toList :=
  (detector_init_spec "hosts/S/AVDetector.1/SourceEndpoint.vmda".toList).2.1
    (by decide) (by decide)

/-- Newline character. -/
def nlChar : Char := Char.ofNat 10

/-- Carriage-return character. -/
def crChar : Char := Char.ofNat 13

/-- Tab character. -/
def tabChar : Char := Char.ofNat 9

/-- Escape of a single character inside a Python `repr` of a string
delimited by quote character `q`: the backslash and the delimiter are
backslash-escaped, the common control characters become `\n`, `\r`, `\t`,
every other character stands for itself.  (Python additionally
`\xNN`-escapes other non-printable characters; the ids handled here are
printable, and the encoding stays injective either way.) -/
def pyEscChar (q c : Char) : List Char :=
  if c = backslashChar then [backslashChar, backslashChar]
  else if c = q then [backslashChar, q]
  else if c = nlChar then [backslashChar, 'n']
  else if c = crChar then [backslashChar, 'r']
  else if c = tabChar then [backslashChar, 't']
  else [c]

/-- Character-wise escaping of a whole string body. -/
def pyEsc (q : Char) : List Char → List Char
  | [] => []
  | c :: rest => pyEscChar q c ++ pyEsc q rest

/-- Inverse of a single escape: the letters `n`, `r`, `t` decode to their
control characters, anything else (the backslash or the quote) to itself. -/
def pyUnescChar (c : Char) : Char :=
  if c = 'n' then nlChar else if c = 'r' then crChar else if c = 't' then tabChar else c

/-- Decoder for `pyEsc`: a backslash consumes the following character
through `pyUnescChar`; other characters stand for themselves. -/
def pyUnesc : List Char → List Char
  | [] => []
  | [c] => if c = backslashChar then [] else [c]
  | c :: d :: rest =>
      if c = backslashChar then pyUnescChar d :: pyUnesc rest
      else c :: pyUnesc (d :: rest)

/-- Model of Python's `repr` on a string: single quotes by default, double
quotes when the string contains a single quote but no double quote
(CPython's rule), with the body escaped by `pyEsc`. -/
def pyRepr (s : List Char) : List Char :=
  if s.contains aposChar && !(s.contains dquoteChar) then
    dquoteChar :: (pyEsc dquoteChar s ++ [dquoteChar])
  else
    aposChar :: (pyEsc aposChar s ++ [aposChar])

/-- Decoding after a non-backslash character steps over it. -/
theorem pyUnesc_cons_notbs (c : Char) (h : c ≠ backslashChar) (l : List Char) :
    pyUnesc (c :: l) = c :: pyUnesc l := by
  cases l with
  | nil => simp [pyUnesc, h]
  | cons d t => simp [pyUnesc, h]

/-- Decoding after a backslash consumes one escaped character. -/
theorem pyUnesc_bs (d : Char) (l : List Char) :
    pyUnesc (backslashChar :: d :: l) = pyUnescChar d :: pyUnesc l := by
  simp [pyUnesc]

/-- The backslash decodes to itself. -/
theorem pyUnescChar_backslash : pyUnescChar backslashChar = backslashChar := by
  decide

/-- `pyUnesc` is a left inverse of `pyEsc` for any quote character that is
not itself the backslash or one of the escape letters (both actual quote
characters qualify). -/
theorem pyUnesc_pyEsc (q : Char) (hbs : q ≠ backslashChar) (hn : q ≠ 'n')
    (hr : q ≠ 'r') (ht : q ≠ 't') (s : List Char) : pyUnesc (pyEsc q s) = s := by
  induction s with
  | nil => rfl
  | cons c rest ih =>
      show pyUnesc (pyEscChar q c ++ pyEsc q rest) = c :: rest
      by_cases h1 : c = backslashChar
      · subst h1
        have he : pyEscChar q backslashChar = [backslashChar, backslashChar] := by
          simp [pyEscChar]
        rw [he, List.cons_append, List.cons_append, List.nil_append, pyUnesc_bs,
          pyUnescChar_backslash, ih]
      by_cases h2 : c = q
      · subst h2
        have he : pyEscChar c c = [backslashChar, c] := by
          simp [pyEscChar, h1]
        have hu : pyUnescChar c = c := by
          simp [pyUnescChar, hn, hr, ht]
        rw [he, List.cons_append, List.cons_append, List.nil_append, pyUnesc_bs, hu, ih]
      by_cases h3 : c = nlChar
      · subst h3
        have he : pyEscChar q nlChar = [backslashChar, 'n'] := by
          simp [pyEscChar, show nlChar ≠ backslashChar from by decide, h2]
        have hu : pyUnescChar 'n' = nlChar := by decide
        rw [he, List.cons_append, List.cons_append, List.nil_append, pyUnesc_bs, hu, ih]
      by_cases h4 : c = crChar
      · subst h4
        have he : pyEscChar q crChar = [backslashChar, 'r'] := by
          simp [pyEscChar, show crChar ≠ backslashChar from by decide,
            show crChar ≠ nlChar from by decide, h2]
        have hu : pyUnescChar 'r' = crChar := by decide
        rw [he, List.cons_append, List.cons_append, List.nil_append, pyUnesc_bs, hu, ih]
      by_cases h5 : c = tabChar
      · subst h5
        have he : pyEscChar q tabChar = [backslashChar, 't'] := by
          simp [pyEscChar, show tabChar ≠ backslashChar from by decide,
            show tabChar ≠ nlChar from by decide, show tabChar ≠ crChar from by decide, h2]
        have hu : pyUnescChar 't' = tabChar := by decide
        rw [he, List.cons_append, List.cons_append, List.nil_append, pyUnesc_bs, hu, ih]
      · have he : pyEscChar q c = [c] := by
          simp [pyEscChar, h1, h2, h3, h4, h5]
        rw [he, List.singleton_append, pyUnesc_cons_notbs c h1, ih]

/-- `pyRepr` is injective: distinct strings have distinct representations. -/
theorem pyRepr_inj (s1 s2 : List Char) (h : pyRepr s1 = pyRepr s2) : s1 = s2 := by
  have hd_bs : dquoteChar ≠ backslashChar := by decide
  have hd_n : dquoteChar ≠ 'n' := by decide
  have hd_r : dquoteChar ≠ 'r' := by decide
  have hd_t : dquoteChar ≠ 't' := by decide
  have ha_bs : aposChar ≠ backslashChar := by decide
  have ha_n : aposChar ≠ 'n' := by decide
  have ha_r : aposChar ≠ 'r' := by decide
  have ha_t : aposChar ≠ 't' := by decide
  unfold pyRepr at h
  by_cases b1 : (s1.contains aposChar && !(s1.contains dquoteChar)) = true <;>
    by_cases b2 : (s2.contains aposChar && !(s2.contains dquoteChar)) = true
  · rw [if_pos b1, if_pos b2] at h
    injection h with _ h'
    have h'' := List.append_cancel_right h'
    calc s1 = pyUnesc (pyEsc dquoteChar s1) :=
          (pyUnesc_pyEsc dquoteChar hd_bs hd_n hd_r hd_t s1).symm
      _ = pyUnesc (pyEsc dquoteChar s2) := by rw [h'']
      _ = s2 := pyUnesc_pyEsc dquoteChar hd_bs hd_n hd_r hd_t s2
  · rw [if_pos b1, if_neg b2] at h
    injection h with hq _
    exact absurd hq (by decide)
  · rw [if_neg b1, if_pos b2] at h
    injection h with hq _
    exact absurd hq (by decide)
  · rw [if_neg b1, if_neg b2] at h
    injection h with _ h'
    have h'' := List.append_cancel_right h'
    calc s1 = pyUnesc (pyEsc aposChar s1) :=
          (pyUnesc_pyEsc aposChar ha_bs ha_n ha_r ha_t s1).symm
      _ = pyUnesc (pyEsc aposChar s2) := by rw [h'']
      _ = s2 := pyUnesc_pyEsc aposChar ha_bs ha_n ha_r ha_t s2

/-- The concrete Python classes whose `type(self).__name__` feeds the hash
(`http_api.py` lines 121-227): `AxxonObject` and its subclasses `Camera`,
`Archive`, `Detector`. -/
inductive AxxonType where
  | AxxonObject
  | Camera
  | Archive
  | Detector
deriving DecidableEq

/-- `type(self).__name__` as a character list. -/
def typeNameChars : AxxonType → List Char
  | .AxxonObject => ['A', 'x', 'x', 'o', 'n', 'O', 'b', 'j', 'e', 'c', 't']
  | .Camera => ['C', 'a', 'm', 'e', 'r', 'a']
  | .Archive => ['A', 'r', 'c', 'h', 'i', 'v', 'e']
  | .Detector => ['D', 'e', 't', 'e', 'c', 't', 'o', 'r']

/-- A domain object as seen by `__hash__` / `__eq__`: its concrete class
and its `id` string. -/
structure PyAxxonObject where
  type : AxxonType
  id : List Char
deriving DecidableEq

/-- Model of `AxxonObject.__hash__` (`http_api.py` lines 136-137): the
string fed to `hash`, namely the class name followed by the `repr` of the
id.  Python's randomized string hash is modelled as an injective function,
so the hashed string itself stands for the hash value (hash collisions
between distinct strings are idealized away). -/
def axxonHash (o : PyAxxonObject) : List Char :=
  typeNameChars o.type ++ pyRepr o.id

/-- Model of `AxxonObject.__eq__` (`http_api.py` lines 139-140):
`hash(self) == hash(other)`. -/
def axxonEq (a b : PyAxxonObject) : Bool :=
  axxonHash a == axxonHash b

/-- The hash input determines type and id: the class name is quote-free
and `pyRepr` starts with a quote, so the concatenation is injective. -/
theorem axxonHash_inj (a b : PyAxxonObject) (h : axxonHash a = axxonHash b) :
    a.type = b.type ∧ a.id = b.id := by
  obtain ⟨ta, ia⟩ := a
  obtain ⟨tb, ib⟩ := b
  simp only [axxonHash] at h
  cases ta <;> cases tb <;>
    simp [typeNameChars] at h ⊢ <;>
    exact pyRepr_inj _ _ h

/-- C6: two domain objects are `==`-equal exactly when they have the same
concrete type and equal id strings, and objects with equal types and ids
have equal hashes: equality and hashing are identity-based on the pair
(type, id). -/
theorem axxon_eq_iff (a b : PyAxxonObject) :
    (axxonEq a b = true ↔ a.type = b.type ∧ a.id = b.id) ∧
    (a.type = b.type → a.id = b.id → axxonHash a = axxonHash b) := by
  refine ⟨⟨fun h => ?_, fun h => ?_⟩, fun h1 h2 => ?_⟩
  · exact axxonHash_inj a b (by simpa [axxonEq] using h)
  · simp [axxonEq, axxonHash, h.1, h.2]
  · simp [axxonHash, h1, h2]

/-- Witness for C6 at a concrete pair of equal cameras. -/
theorem axxon_eq_iff_witness :
    axxonHash ⟨AxxonType.Camera, ['c', 'a', 'm']⟩ =
      axxonHash ⟨AxxonType.Camera, ['c', 'a', 'm']⟩ :=
  (axxon_eq_iff ⟨AxxonType.Camera, ['c', 'a', 'm']⟩
    ⟨AxxonType.Camera, ['c', 'a', 'm']⟩).2 rfl rfl
